import Mathlib

/-!
# Verification of `pocket-to-sqlite` core logic

A shallow embedding, in Lean 4, of the core functions of the
`pocket-to-sqlite` repository (`pocket_to_sqlite/utils.py`):

* `transform` — the record normalizer,
* `save_items` — the idempotent upsert writer (items / authors /
  items_authors tables, insert-or-replace by primary key),
* `FetchItems.__iter__` — the paginated source iterator with 503 retry,
  payload-too-large page-size shrinking and empty-page termination,
* `KarakeepClient.create_bookmark` and `export_items_to_karakeep` — the
  export pump with its per-item retry policy and outcome reporting.

Python dictionaries of JSON values are modelled as association lists of
`Val`; SQLite tables (primary-keyed, written with `replace=True`) are
modelled as `Finmap`s from the primary key to the row; the network is
modelled as an explicit list (script) of responses consumed in order.
-/

/-- A JSON-ish scalar value as it appears in Pocket records
(`None`, an `int`, or a `str`). -/
inductive Val where
  | vNull : Val
  | vInt : Int → Val
  | vStr : String → Val
deriving DecidableEq, Repr

/-- Python truthiness for the values of `Val`:
`None`, `0` and `""` are falsy. -/
def pyTruthy : Val → Bool
  | .vNull => false
  | .vInt n => n ≠ 0
  | .vStr s => s ≠ ""

/-- Model of Python `int(s)` on a string: strip surrounding whitespace,
accept an optional sign followed by a nonempty run of decimal digits. -/
def pyStrToInt (s : String) : Option Int :=
  let t := ((s.data.dropWhile Char.isWhitespace).reverse.dropWhile
    Char.isWhitespace).reverse
  let core : List Char :=
    match t with
    | '+' :: r => r
    | r => r
  let neg : Bool :=
    match t with
    | '-' :: _ => true
    | _ => false
  let core := if neg then core.tail else core
  if core ≠ [] ∧ core.all Char.isDigit then
    let n : Nat := core.foldl (fun a c => a * 10 + (c.toNat - 48)) 0
    some (if neg then -(n : Int) else (n : Int))
  else
    none

/-- Model of Python `int(v)` on a record value: identity on ints, string
parsing on strings, a `TypeError` (failure) on `None`. -/
def pyInt : Val → Option Int
  | .vNull => none
  | .vInt n => some n
  | .vStr s => pyStrToInt s

/-- A Pocket record: a JSON object, i.e. a Python dict with string keys
(association list, insertion order preserved, keys unique in practice). -/
abbrev Record := List (String × Val)

/-- `item.get(k)` on a record: the value at the first matching key. -/
def getVal : Record → String → Option Val
  | [], _ => none
  | p :: rest, k => if p.1 = k then some p.2 else getVal rest k

/-- `item[k] = v` on a record whose key `k` is already present
(replaces the stored value in place, keeps insertion order). -/
def setVal (r : Record) (k : String) (v : Val) : Record :=
  r.map (fun p => if p.1 = k then (p.1, v) else p)

/-- The fixed tuple of known integer-typed keys iterated over by
`transform` (utils.py lines 60–76). -/
def intKeys : List String :=
  ["item_id", "resolved_id", "favorite", "status", "time_added",
   "time_updated", "time_read", "time_favorited", "is_article", "is_index",
   "has_video", "has_image", "word_count", "time_to_read",
   "listen_duration_estimate"]

/-- One step of the first `transform` loop: `if key in item:
item[key] = int(item[key])`; `none` models the `int()` call raising. -/
def intifyKey (r : Record) (k : String) : Option Record :=
  match getVal r k with
  | none => some r
  | some v => (pyInt v).map (fun n => setVal r k (.vInt n))

/-- One step of the second `transform` loop: `if key in item and
not item[key]: item[key] = None`. -/
def nullifyFalsy (r : Record) (k : String) : Record :=
  match getVal r k with
  | none => r
  | some v => if pyTruthy v then r else setVal r k .vNull

/-- The two timestamp keys collapsed to `None` when falsy
(utils.py line 80). -/
def falsyNullKeys : List String := ["time_read", "time_favorited"]

/-- `transform(item)` (utils.py lines 59–82), as a function from the raw
record to the normalized record; `none` models an exception escaping. -/
def transform (r : Record) : Option Record :=
  (intKeys.foldlM intifyKey r).map (fun r1 => falsyNullKeys.foldl nullifyFalsy r1)

example : transform [("item_id", .vStr "123"), ("lang", .vStr "en")] =
    some [("item_id", .vInt 123), ("lang", .vStr "en")] := by decide

example : transform [("time_read", .vStr "0"), ("time_added", .vInt 5)] =
    some [("time_read", .vNull), ("time_added", .vInt 5)] := by decide

example : transform [("time_read", .vStr "")] = none := by decide

/-! ## MD5 (RFC 1321), used by `save_items` for non-numeric author ids

`author_id = int(hashlib.md5(author_id_raw.encode()).hexdigest()[:8], 16)`
(utils.py line 33). All 32-bit words are `Nat`s reduced mod `2 ^ 32`.
-/

/-- Truncate to a 32-bit word. -/
def m32 (x : Nat) : Nat := x % 4294967296

/-- 32-bit addition. -/
def add32 (a b : Nat) : Nat := m32 (a + b)

/-- 32-bit left rotation (arguments already `< 2 ^ 32`, `0 < n < 32`). -/
def rotl32 (x n : Nat) : Nat := m32 ((x <<< n) ||| (x >>> (32 - n)))

/-- 32-bit complement. -/
def not32 (x : Nat) : Nat := x ^^^ 4294967295

/-- UTF-8 encoding of one character (model of Python `str.encode()`). -/
def utf8Bytes (c : Char) : List Nat :=
  let n := c.toNat
  if n < 128 then [n]
  else if n < 2048 then
    [192 ||| (n >>> 6), 128 ||| (n &&& 63)]
  else if n < 65536 then
    [224 ||| (n >>> 12), 128 ||| ((n >>> 6) &&& 63), 128 ||| (n &&& 63)]
  else
    [240 ||| (n >>> 18), 128 ||| ((n >>> 12) &&& 63),
     128 ||| ((n >>> 6) &&& 63), 128 ||| (n &&& 63)]

/-- The byte sequence of a string's UTF-8 encoding. -/
def strBytes (s : String) : List Nat := s.data.flatMap utf8Bytes

/-- The 64 MD5 sine-derived constants `K[i]` (RFC 1321). -/
def md5K : List Nat :=
  [0xd76aa478, 0xe8c7b756, 0x242070db, 0xc1bdceee,
   0xf57c0faf, 0x4787c62a, 0xa8304613, 0xfd469501,
   0x698098d8, 0x8b44f7af, 0xffff5bb1, 0x895cd7be,
   0x6b901122, 0xfd987193, 0xa679438e, 0x49b40821,
   0xf61e2562, 0xc040b340, 0x265e5a51, 0xe9b6c7aa,
   0xd62f105d, 0x02441453, 0xd8a1e681, 0xe7d3fbc8,
   0x21e1cde6, 0xc33707d6, 0xf4d50d87, 0x455a14ed,
   0xa9e3e905, 0xfcefa3f8, 0x676f02d9, 0x8d2a4c8a,
   0xfffa3942, 0x8771f681, 0x6d9d6122, 0xfde5380c,
   0xa4beea44, 0x4bdecfa9, 0xf6bb4b60, 0xbebfbc70,
   0x289b7ec6, 0xeaa127fa, 0xd4ef3085, 0x04881d05,
   0xd9d4d039, 0xe6db99e5, 0x1fa27cf8, 0xc4ac5665,
   0xf4292244, 0x432aff97, 0xab9423a7, 0xfc93a039,
   0x655b59c3, 0x8f0ccc92, 0xffeff47d, 0x85845dd1,
   0x6fa87e4f, 0xfe2ce6e0, 0xa3014314, 0x4e0811a1,
   0xf7537e82, 0xbd3af235, 0x2ad7d2bb, 0xeb86d391]

/-- The 64 MD5 per-round left-rotation amounts `s[i]`. -/
def md5S : List Nat :=
  [7, 12, 17, 22, 7, 12, 17, 22, 7, 12, 17, 22, 7, 12, 17, 22,
   5, 9, 14, 20, 5, 9, 14, 20, 5, 9, 14, 20, 5, 9, 14, 20,
   4, 11, 16, 23, 4, 11, 16, 23, 4, 11, 16, 23, 4, 11, 16, 23,
   6, 10, 15, 21, 6, 10, 15, 21, 6, 10, 15, 21, 6, 10, 15, 21]

/-- The MD5 round function applied at operation `i`. -/
def md5F (i b c d : Nat) : Nat :=
  if i < 16 then (b &&& c) ||| (not32 b &&& d)
  else if i < 32 then (d &&& b) ||| (not32 d &&& c)
  else if i < 48 then b ^^^ c ^^^ d
  else c ^^^ (b ||| not32 d)

/-- The MD5 message-word index used at operation `i`. -/
def md5G (i : Nat) : Nat :=
  if i < 16 then i
  else if i < 32 then (5 * i + 1) % 16
  else if i < 48 then (3 * i + 5) % 16
  else (7 * i) % 16

/-- One of the 64 MD5 operations on the state `(a, b, c, d)`. -/
def md5Step (M : List Nat) (st : Nat × Nat × Nat × Nat) (i : Nat) :
    Nat × Nat × Nat × Nat :=
  let (a, b, c, d) := st
  let tmp := add32 (add32 (add32 a (md5F i b c d)) (md5K.getD i 0)) (M.getD (md5G i) 0)
  (d, add32 b (rotl32 tmp (md5S.getD i 0)), b, c)

/-- Group a byte list into little-endian 32-bit words. -/
def bytesToWords : List Nat → List Nat
  | b0 :: b1 :: b2 :: b3 :: rest =>
      (b0 + b1 * 256 + b2 * 65536 + b3 * 16777216) :: bytesToWords rest
  | _ => []

/-- Split a byte list into 64-byte chunks (structural fuel so that the
definition reduces; the fuel is the list length, always sufficient). -/
def chunks64Aux : Nat → List Nat → List (List Nat)
  | 0, _ => []
  | _, [] => []
  | fuel + 1, b :: t => ((b :: t).take 64) :: chunks64Aux fuel ((b :: t).drop 64)

/-- Split a byte list into 64-byte chunks. -/
def chunks64 (l : List Nat) : List (List Nat) := chunks64Aux l.length l

/-- MD5 compression of one 64-byte chunk. -/
def md5Chunk (st : Nat × Nat × Nat × Nat) (chunk : List Nat) :
    Nat × Nat × Nat × Nat :=
  let M := bytesToWords chunk
  let (a, b, c, d) := (List.range 64).foldl (md5Step M) st
  let (a0, b0, c0, d0) := st
  (add32 a0 a, add32 b0 b, add32 c0 c, add32 d0 d)

/-- MD5 padding: append `0x80`, zero-pad to 56 mod 64, append the 64-bit
little-endian bit length. -/
def md5Pad (msg : List Nat) : List Nat :=
  let len := msg.length
  let zeros := (55 + 64 - len % 64) % 64
  let bitLen := (len * 8) % 18446744073709551616
  msg ++ [128] ++ List.replicate zeros 0 ++
    [bitLen % 256, bitLen / 256 % 256, bitLen / 65536 % 256,
     bitLen / 16777216 % 256, bitLen / 4294967296 % 256,
     bitLen / 1099511627776 % 256, bitLen / 281474976710656 % 256,
     bitLen / 72057594037927936 % 256]

/-- The four bytes of a 32-bit word, little-endian. -/
def le4 (n : Nat) : List Nat :=
  [n % 256, n / 256 % 256, n / 65536 % 256, n / 16777216 % 256]

/-- The 16-byte MD5 digest of a byte sequence. -/
def md5Digest (msg : List Nat) : List Nat :=
  let (a, b, c, d) :=
    (chunks64 (md5Pad msg)).foldl md5Chunk
      (0x67452301, 0xefcdab89, 0x98badcfe, 0x10325476)
  le4 a ++ le4 b ++ le4 c ++ le4 d

/-- A lowercase hexadecimal digit character. -/
def hexChar (n : Nat) : Char :=
  if n < 10 then Char.ofNat (48 + n) else Char.ofNat (87 + n)

/-- `hashlib.md5(...).hexdigest()`: the 32-character lowercase hex digest. -/
def md5Hexdigest (msg : List Nat) : String :=
  ⟨(md5Digest msg).flatMap (fun b => [hexChar (b / 16), hexChar (b % 16)])⟩

/-- The value of a lowercase hex digit. -/
def hexVal (c : Char) : Nat :=
  if c.toNat ≤ 57 then c.toNat - 48 else c.toNat - 87

/-- `int(h, 16)` on a lowercase hex string. -/
def hexToNat (cs : List Char) : Nat :=
  cs.foldl (fun a c => a * 16 + hexVal c) 0

/-- `int(hashlib.md5(s.encode()).hexdigest()[:8], 16)` (utils.py line 33):
the deterministic surrogate integer id derived from a non-numeric author
identifier string. -/
def stringAuthorId (s : String) : Int :=
  Int.ofNat (hexToNat ((md5Hexdigest (strBytes s)).data.take 8))

/-! ## The relational store and the upsert writer `save_items`

Each SQLite table written by `save_items` has a declared primary key and
is only ever written with `replace=True` (insert-or-replace by key), so a
table is modelled as a `Finmap` from the key to the row. -/

/-- A primary-keyed table: a finite map from key to row. -/
abbrev Table (κ V : Type) := Finmap (fun _ : κ => V)

/-- Insert-or-replace one row (`insert ... replace=True`). -/
def tPut [DecidableEq κ] (t : Table κ V) (k : κ) (v : V) : Table κ V :=
  t.insert k v

/-- Insert-or-replace a batch of rows in order (`insert_all ...
replace=True`); a later row with the same key wins. -/
def tPuts [DecidableEq κ] (t : Table κ V) (ops : List (κ × V)) : Table κ V :=
  ops.foldl (fun t e => t.insert e.1 e.2) t

/-- One author detail object, as found in `item["authors"].values()`:
the Pocket API supplies all four fields as strings. -/
structure AuthorDetail where
  author_id : String
  name : String
  url : String
  item_id : String
deriving DecidableEq, Repr

/-- A raw item as consumed by `save_items`: its scalar fields plus the
optional nested `"authors"` map (`none` = key absent; the dict's values
in iteration order). -/
structure RawItem where
  fields : Record
  authors : Option (List AuthorDetail)
deriving DecidableEq

/-- A row of the `authors` table (the `author_id` key aside). -/
structure AuthorRow where
  name : String
  url : String
deriving DecidableEq, Repr

/-- The whole store: the three tables written by `save_items`. -/
structure Db where
  items : Table Int Record
  authors : Table Int AuthorRow
  items_authors : Table (Int × Int) Unit
deriving DecidableEq

/-- The author-detail resolution of `save_items` (utils.py lines 23–41):
try `int(author_id_raw)`; on success use it and the declared name; on
`ValueError` use the raw string as the name and the truncated-MD5
surrogate integer as the id. Returns the `authors` table upsert. -/
def authorEntry (d : AuthorDetail) : Int × AuthorRow :=
  match pyStrToInt d.author_id with
  | some n => (n, ⟨d.name, d.url⟩)
  | none => (stringAuthorId d.author_id, ⟨d.author_id, d.url⟩)

/-- `item.pop("authors", None)` with `if authors:` — the list of author
details processed for an item (absent and empty both yield `[]`). -/
def authorsOf (i : RawItem) : List AuthorDetail :=
  i.authors.getD []

/-- The batched table operations one `save_items` loop iteration performs
for an item, computed before any write (utils.py lines 14–47): `none`
models an exception (in `transform`, in `int(details["item_id"])`, or a
missing/non-integer `item_id` primary key) raised before the writes. -/
structure ItemOps where
  itemRow : Int × Record
  authorRows : List (Int × AuthorRow)
  joinRows : List ((Int × Int) × Unit)

/-- Map a fallible function over a list, aborting at the first failure
(the Python `for` loop raising mid-iteration). -/
def optMapM (f : α → Option β) : List α → Option (List β)
  | [] => some []
  | a :: rest =>
    match f a, optMapM f rest with
    | some b, some bs => some (b :: bs)
    | _, _ => none

/-- The `items_authors` upsert an author detail contributes:
`{"author_id": author_id, "item_id": int(details["item_id"])}`
(utils.py lines 42–47); `none` models `int()` raising. -/
def joinEntry (d : AuthorDetail) : Option ((Int × Int) × Unit) :=
  (pyStrToInt d.item_id).map (fun ii => (((authorEntry d).1, ii), ()))

def saveItemOps (i : RawItem) : Option ItemOps :=
  match transform i.fields with
  | none => none
  | some fields =>
    let ds := authorsOf i
    match optMapM joinEntry ds with
    | none => none
    | some joins =>
      match getVal fields "item_id" with
      | some (.vInt pk) => some ⟨(pk, fields), ds.map authorEntry, joins⟩
      | _ => none

/-- Apply one item's operations to the store, in source order: the
`authors` batch (pk `author_id`), the item row (pk `item_id`), the
`items_authors` batch (pk `(author_id, item_id)`), each with
`replace=True` (utils.py lines 48–56). -/
def applyOps (o : ItemOps) (db : Db) : Db :=
  { items := tPut db.items o.itemRow.1 o.itemRow.2,
    authors := tPuts db.authors o.authorRows,
    items_authors := tPuts db.items_authors o.joinRows }

/-- One `save_items` loop iteration on one item; `none` models the
exception escaping before any write for this item. -/
def saveItem (i : RawItem) (db : Db) : Option Db :=
  (saveItemOps i).map (fun o => applyOps o db)

/-- `save_items(items, db)`: process the items in order; on the first
exception stop, keeping the writes already made (the `Bool` is `true`
iff the call returned without raising). -/
def saveItems : List RawItem → Db → Db × Bool
  | [], db => (db, true)
  | i :: rest, db =>
    match saveItem i db with
    | some db' => saveItems rest db'
    | none => (db, false)

/-- The final store of a `save_items` call. -/
def saveItemsDb (items : List RawItem) (db : Db) : Db :=
  (saveItems items db).1

/-! ## Insert-or-replace algebra -/

theorem tPuts_append [DecidableEq κ] (t : Table κ V) (xs ys : List (κ × V)) :
    tPuts t (xs ++ ys) = tPuts (tPuts t xs) ys :=
  List.foldl_append _ _ _ _

theorem tPuts_put_absorb [DecidableEq κ] (ops : List (κ × V)) (k : κ)
    (v w : V) (t : Table κ V) :
    tPut (tPuts (tPut t k w) ops) k v = tPut (tPuts t ops) k v := by
  induction ops generalizing t w with
  | nil => exact Finmap.insert_insert t
  | cons e rest ih =>
    obtain ⟨k', v'⟩ := e
    by_cases h : k' = k
    · subst h
      simp only [tPuts, tPut, List.foldl_cons, Finmap.insert_insert]
    · simp only [tPuts, tPut, List.foldl_cons] at ih ⊢
      rw [Finmap.insert_insert_of_ne t (fun hkk => h hkk.symm)]
      exact ih w (tPut t k' v')

theorem tPuts_idem [DecidableEq κ] (ops : List (κ × V)) (t : Table κ V) :
    tPuts (tPuts t ops) ops = tPuts t ops := by
  induction ops using List.reverseRecOn with
  | nil => rfl
  | append_singleton l e ih =>
    obtain ⟨k, v⟩ := e
    rw [tPuts_append, tPuts_append]
    show tPut (tPuts (tPuts (tPuts t l) [(k, v)]) l) k v = tPut (tPuts t l) k v
    have : tPuts (tPuts t l) [(k, v)] = tPut (tPuts t l) k v := rfl
    rw [this, tPuts_put_absorb, ih]

theorem tPuts_lookup_written [DecidableEq κ] (ops : List (κ × V)) (k : κ)
    (h : k ∈ ops.map Prod.fst) (t t' : Table κ V) :
    (tPuts t ops).lookup k = (tPuts t' ops).lookup k := by
  induction ops using List.reverseRecOn with
  | nil => simp at h
  | append_singleton l e ih =>
    obtain ⟨k', v'⟩ := e
    rw [tPuts_append, tPuts_append]
    show (tPut (tPuts t l) k' v').lookup k = (tPut (tPuts t' l) k' v').lookup k
    by_cases hk : k = k'
    · subst hk
      simp [tPut, Finmap.lookup_insert]
    · simp only [tPut, Finmap.lookup_insert_of_ne _ hk]
      apply ih
      simp only [List.map_append, List.mem_append] at h
      rcases h with h | h
      · exact h
      · simp at h; exact absurd h hk

theorem tPuts_lookup_unwritten [DecidableEq κ] (ops : List (κ × V)) (k : κ)
    (h : ∀ p ∈ ops, p.1 ≠ k) (t : Table κ V) :
    (tPuts t ops).lookup k = t.lookup k := by
  induction ops generalizing t with
  | nil => rfl
  | cons e rest ih =>
    show (tPuts (tPut t e.1 e.2) rest).lookup k = t.lookup k
    rw [ih (fun p hp => h p (List.mem_cons_of_mem e hp)) (tPut t e.1 e.2)]
    exact Finmap.lookup_insert_of_ne t
      (fun hk => (h e (List.mem_cons_self e rest)) hk.symm)

/-! ## `save_items` as batched operations -/

/-- The per-item operations actually performed by a `save_items` run: the
prefix of items processed before the first exception (all of them when no
exception occurs). Independent of the store. -/
def okOps : List RawItem → List ItemOps
  | [] => []
  | i :: rest =>
    match saveItemOps i with
    | some o => o :: okOps rest
    | none => []

/-- Apply a list of per-item operation batches in order. -/
def applyAll : List ItemOps → Db → Db
  | [], db => db
  | o :: rest, db => applyAll rest (applyOps o db)

theorem saveItemsDb_eq_applyAll (l : List RawItem) (db : Db) :
    saveItemsDb l db = applyAll (okOps l) db := by
  induction l generalizing db with
  | nil => rfl
  | cons i rest ih =>
    simp only [saveItemsDb, saveItems, saveItem, okOps]
    cases h : saveItemOps i with
    | none => rfl
    | some o =>
      simp only [Option.map_some']
      exact ih (applyOps o db)

theorem applyAll_components (ops : List ItemOps) (db : Db) :
    applyAll ops db =
      { items := tPuts db.items (ops.map (·.itemRow)),
        authors := tPuts db.authors (ops.map (·.authorRows)).flatten,
        items_authors := tPuts db.items_authors (ops.map (·.joinRows)).flatten } := by
  induction ops generalizing db with
  | nil => rfl
  | cons o rest ih =>
    show applyAll rest (applyOps o db) = _
    rw [ih]
    simp only [List.map_cons, List.flatten_cons]
    have hitems : (applyOps o db).items = tPuts db.items [o.itemRow] := rfl
    have hauth : (applyOps o db).authors = tPuts db.authors o.authorRows := rfl
    have hjoin : (applyOps o db).items_authors =
        tPuts db.items_authors o.joinRows := rfl
    rw [hitems, hauth, hjoin, ← tPuts_append, ← tPuts_append, ← tPuts_append]
    rfl

theorem applyAll_idem (ops : List ItemOps) (db : Db) :
    applyAll ops (applyAll ops db) = applyAll ops db := by
  rw [applyAll_components ops db, applyAll_components]
  simp only [tPuts_idem]

/-- **C1.** Replaying `save_items` on the identical input sequence any
number of times leaves the store in the same final state as one
application — identical row counts and content for the `items`, `authors`
and `items_authors` tables — and the keyed tables never hold duplicate
rows or duplicate join rows, for every input sequence of records and
every starting store. -/
theorem save_items_replay_idempotent (items : List RawItem) (db : Db) (n : Nat) :
    (saveItemsDb items)^[n + 1] db = saveItemsDb items db ∧
    (saveItemsDb items db).items.entries.Nodup ∧
    (saveItemsDb items db).authors.entries.Nodup ∧
    (saveItemsDb items db).items_authors.entries.Nodup := by
  have key : saveItemsDb items (saveItemsDb items db) = saveItemsDb items db := by
    rw [saveItemsDb_eq_applyAll items db,
      saveItemsDb_eq_applyAll items (applyAll (okOps items) db)]
    exact applyAll_idem _ _
  refine ⟨?_, Finmap.nodup_entries _, Finmap.nodup_entries _,
    Finmap.nodup_entries _⟩
  induction n with
  | zero => rfl
  | succ n ih =>
    rw [Function.iterate_succ_apply', ih, key]

/-! ## Inversion lemmas for `save_items` -/

theorem optMapM_mem {f : α → Option β} {l : List α} {res : List β}
    (h : optMapM f l = some res) {a : α} (ha : a ∈ l) :
    ∃ b, f a = some b ∧ b ∈ res := by
  induction l generalizing res with
  | nil => cases ha
  | cons x rest ih =>
    simp only [optMapM] at h
    cases hx : f x with
    | none => rw [hx] at h; exact absurd h (by simp)
    | some b =>
      cases hrest : optMapM f rest with
      | none => rw [hx, hrest] at h; exact absurd h (by simp)
      | some bs =>
        rw [hx, hrest] at h
        obtain rfl : b :: bs = res := by simpa using h
        rcases List.mem_cons.1 ha with rfl | ha'
        · exact ⟨b, hx, List.mem_cons_self _ _⟩
        · obtain ⟨b', hb', hmem⟩ := ih hrest ha'
          exact ⟨b', hb', List.mem_cons_of_mem _ hmem⟩

theorem optMapM_sources {f : α → Option β} {l : List α} {res : List β}
    (h : optMapM f l = some res) {b : β} (hb : b ∈ res) :
    ∃ a ∈ l, f a = some b := by
  induction l generalizing res with
  | nil =>
    simp only [optMapM] at h
    obtain rfl : ([] : List β) = res := by simpa using h
    cases hb
  | cons x rest ih =>
    simp only [optMapM] at h
    cases hx : f x with
    | none => rw [hx] at h; exact absurd h (by simp)
    | some b' =>
      cases hrest : optMapM f rest with
      | none => rw [hx, hrest] at h; exact absurd h (by simp)
      | some bs =>
        rw [hx, hrest] at h
        obtain rfl : b' :: bs = res := by simpa using h
        rcases List.mem_cons.1 hb with rfl | hb'
        · exact ⟨x, List.mem_cons_self _ _, hx⟩
        · obtain ⟨a, ha, hfa⟩ := ih hrest hb'
          exact ⟨a, List.mem_cons_of_mem _ ha, hfa⟩

theorem tPuts_mem [DecidableEq κ] {ops : List (κ × V)} {k : κ}
    (t : Table κ V) (h : k ∈ ops.map Prod.fst ∨ k ∈ t) :
    k ∈ tPuts t ops := by
  induction ops generalizing t with
  | nil => simpa using h.resolve_left (by simp)
  | cons e rest ih =>
    show k ∈ tPuts (tPut t e.1 e.2) rest
    apply ih
    rcases h with h | h
    · rw [List.map_cons] at h
      rcases List.mem_cons.1 h with rfl | h'
      · exact Or.inr (Finmap.mem_insert.2 (Or.inl rfl))
      · exact Or.inl h'
    · exact Or.inr (Finmap.mem_insert.2 (Or.inr h))

theorem saveItem_inv {i : RawItem} {db db' : Db}
    (h : saveItem i db = some db') :
    ∃ o, saveItemOps i = some o ∧ db' = applyOps o db := by
  unfold saveItem at h
  cases ho : saveItemOps i with
  | none => rw [ho] at h; exact absurd h (by simp)
  | some o =>
    rw [ho] at h
    exact ⟨o, rfl, by simpa using h.symm⟩

theorem saveItemOps_inv {i : RawItem} {o : ItemOps}
    (h : saveItemOps i = some o) :
    o.authorRows = (authorsOf i).map authorEntry ∧
    optMapM joinEntry (authorsOf i) = some o.joinRows := by
  unfold saveItemOps at h
  cases ht : transform i.fields with
  | none => rw [ht] at h; exact absurd h (by simp)
  | some fields =>
    rw [ht] at h
    simp only at h
    cases hj : optMapM joinEntry (authorsOf i) with
    | none => rw [hj] at h; exact absurd h (by simp)
    | some joins =>
      rw [hj] at h
      cases hpk : getVal fields "item_id" with
      | none => rw [hpk] at h; exact absurd h (by simp)
      | some v =>
        rw [hpk] at h
        cases v with
        | vInt pk =>
          have ho : o = (⟨(pk, fields), (authorsOf i).map authorEntry, joins⟩ :
            ItemOps) := by simpa using h.symm
          subst ho
          exact ⟨rfl, rfl⟩
        | vNull => exact absurd h (by simp)
        | vStr s => exact absurd h (by simp)

/-- **C2.** For an author detail whose identifier does not parse as an
integer, `save_items` uses the identifier string itself as the display
name and derives the surrogate id as a pure function of that string alone
(the truncated MD5 digest reinterpreted as an integer), so two runs
against different stores agree on the stored author row under that
surrogate id; an identifier that parses as an integer is used directly
together with the declared name. -/
theorem string_author_id_md5_surrogate
    (d : AuthorDetail) (i : RawItem) (db1 db2 r1 r2 : Db)
    (hnon : pyStrToInt d.author_id = none)
    (h1 : saveItem i db1 = some r1) (h2 : saveItem i db2 = some r2)
    (hd : d ∈ authorsOf i) :
    authorEntry d = (stringAuthorId d.author_id, ⟨d.author_id, d.url⟩) ∧
    r1.authors.lookup (stringAuthorId d.author_id) =
      r2.authors.lookup (stringAuthorId d.author_id) ∧
    (∀ (d' : AuthorDetail) (n : Int), pyStrToInt d'.author_id = some n →
      authorEntry d' = (n, ⟨d'.name, d'.url⟩)) := by
  have he : authorEntry d = (stringAuthorId d.author_id, ⟨d.author_id, d.url⟩) := by
    unfold authorEntry
    rw [hnon]
  refine ⟨he, ?_, ?_⟩
  · obtain ⟨o, ho, rfl⟩ := saveItem_inv h1
    obtain ⟨o2, ho2, rfl⟩ := saveItem_inv h2
    rw [ho] at ho2
    obtain rfl : o = o2 := by simpa using ho2
    obtain ⟨ha, -⟩ := saveItemOps_inv ho
    show (tPuts db1.authors o.authorRows).lookup _ =
      (tPuts db2.authors o.authorRows).lookup _
    apply tPuts_lookup_written
    rw [ha]
    have hmem := List.mem_map_of_mem Prod.fst (List.mem_map_of_mem authorEntry hd)
    rw [he] at hmem
    exact hmem
  · intro d' n h
    unfold authorEntry
    rw [h]

/-- **C10.** The `item_id` written into an `items_authors` join row is
taken from the author detail object's own `"item_id"` field (converted to
an integer), not from the enclosing item record: after a successful
`save_items` step the join table holds the key `(author_id,
int(details["item_id"]))` for every processed detail, and holds no key
other than those so derived (beyond what it already held) — in
particular, a detail whose `item_id` differs from its enclosing item's
links the author to that other item. -/
theorem join_row_uses_detail_item_id
    (i : RawItem) (db db' : Db) (d : AuthorDetail) (ii : Int)
    (hsave : saveItem i db = some db')
    (hd : d ∈ authorsOf i)
    (hii : pyStrToInt d.item_id = some ii) :
    db'.items_authors.lookup ((authorEntry d).1, ii) = some () ∧
    ∀ k : Int × Int, db.items_authors.lookup k = none →
      (∀ d' ∈ authorsOf i, ∀ ii', pyStrToInt d'.item_id = some ii' →
        ((authorEntry d').1, ii') ≠ k) →
      db'.items_authors.lookup k = none := by
  obtain ⟨o, ho, rfl⟩ := saveItem_inv hsave
  obtain ⟨-, hj⟩ := saveItemOps_inv ho
  constructor
  · have hje : joinEntry d = some (((authorEntry d).1, ii), ()) := by
      unfold joinEntry
      rw [hii]
      rfl
    obtain ⟨b, hb, hmem⟩ := optMapM_mem hj hd
    rw [hje] at hb
    obtain rfl : b = (((authorEntry d).1, ii), ()) := by simpa using hb.symm
    have hkey : ((authorEntry d).1, ii) ∈ o.joinRows.map Prod.fst :=
      List.mem_map_of_mem _ hmem
    have hm : ((authorEntry d).1, ii) ∈ (applyOps o db).items_authors :=
      tPuts_mem _ (Or.inl hkey)
    have hsome := Finmap.lookup_isSome.2 hm
    cases hv : (applyOps o db).items_authors.lookup ((authorEntry d).1, ii) with
    | none => rw [hv] at hsome; simp at hsome
    | some v => cases v; rfl
  · intro k hk0 hknot
    show (tPuts db.items_authors o.joinRows).lookup k = none
    refine (tPuts_lookup_unwritten o.joinRows k ?_ db.items_authors).trans hk0
    intro p hp
    obtain ⟨a, ha, hfa⟩ := optMapM_sources hj hp
    unfold joinEntry at hfa
    cases hia : pyStrToInt a.item_id with
    | none => rw [hia] at hfa; simp at hfa
    | some ii' =>
      rw [hia] at hfa
      obtain rfl : p = (((authorEntry a).1, ii'), ()) := by simpa using hfa.symm
      exact hknot a ha ii' hia

/-- Concrete author detail with a non-numeric identifier (from the
repository's own test data). -/
def c2wDetail : AuthorDetail :=
  ⟨"Sandra E. Garcia", "Original Name", "http://example.com", "123"⟩

/-- Concrete item carrying `c2wDetail`. -/
def c2wItem : RawItem := ⟨[("item_id", Val.vStr "123")], some [c2wDetail]⟩

/-- An empty store. -/
def emptyDb : Db := ⟨∅, ∅, ∅⟩

/-- A second, different store with a pre-existing author row. -/
def c2wDb2 : Db :=
  ⟨∅, (Finmap.singleton (999 : Int) (⟨"Zo", "w"⟩ : AuthorRow) :
    Table Int AuthorRow), ∅⟩

set_option maxRecDepth 40000 in
/-- Witness for C2 at a concrete non-numeric author identifier and two
different concrete stores. -/
theorem string_author_id_md5_surrogate_witness :
    authorEntry c2wDetail =
      (stringAuthorId "Sandra E. Garcia", ⟨"Sandra E. Garcia", "http://example.com"⟩) ∧
    (saveItemsDb [c2wItem] emptyDb).authors.lookup (stringAuthorId "Sandra E. Garcia") =
      (saveItemsDb [c2wItem] c2wDb2).authors.lookup (stringAuthorId "Sandra E. Garcia") := by
  have h := string_author_id_md5_surrogate c2wDetail c2wItem emptyDb c2wDb2
    (saveItemsDb [c2wItem] emptyDb) (saveItemsDb [c2wItem] c2wDb2)
    (by decide) rfl rfl (by decide)
  exact ⟨h.1, h.2.1⟩

/-- Concrete author detail whose own `item_id` (99) differs from the
enclosing item's `item_id` (10). -/
def c10wDetail : AuthorDetail := ⟨"7", "Ann", "http://a", "99"⟩

/-- Concrete item with `item_id` 10 carrying `c10wDetail`. -/
def c10wItem : RawItem := ⟨[("item_id", Val.vStr "10")], some [c10wDetail]⟩

set_option maxRecDepth 40000 in
/-- Witness for C10: the join row links author 7 to item 99 (the
detail's own `item_id`), not to the enclosing item 10. -/
theorem join_row_uses_detail_item_id_witness :
    (saveItemsDb [c10wItem] emptyDb).items_authors.lookup
      ((7 : Int), (99 : Int)) = some () ∧
    (saveItemsDb [c10wItem] emptyDb).items_authors.lookup
      ((7 : Int), (10 : Int)) = none := by
  have h := join_row_uses_detail_item_id c10wItem emptyDb
    (saveItemsDb [c10wItem] emptyDb) c10wDetail 99 rfl (by decide) (by decide)
  refine ⟨h.1, h.2 (7, 10) rfl ?_⟩
  intro d' hd' ii' hii'
  have hd'' : d' = c10wDetail := by
    have : d' ∈ [c10wDetail] := hd'
    simpa using this
  subst hd''
  have h99 : pyStrToInt c10wDetail.item_id = some 99 := by decide
  rw [h99] at hii'
  have : ii' = 99 := by
    have := hii'.symm
    simpa using this
  subst this
  decide

/-! ## The normalizer contract -/

theorem getVal_setVal_self {r : Record} {k : String} {w : Val} (v : Val)
    (h : getVal r k = some w) : getVal (setVal r k v) k = some v := by
  induction r with
  | nil => simp [getVal] at h
  | cons p rest ih =>
    by_cases hp : p.1 = k
    · show getVal ((if p.1 = k then (p.1, v) else p) :: setVal rest k v) k = some v
      rw [if_pos hp]
      show (if p.1 = k then some v else getVal (setVal rest k v) k) = some v
      rw [if_pos hp]
    · show getVal ((if p.1 = k then (p.1, v) else p) :: setVal rest k v) k = some v
      rw [if_neg hp]
      show (if p.1 = k then some p.2 else getVal (setVal rest k v) k) = some v
      rw [if_neg hp]
      have h' : getVal rest k = some w := by
        have : (if p.1 = k then some p.2 else getVal rest k) = some w := h
        rwa [if_neg hp] at this
      exact ih h'

theorem getVal_setVal_other {r : Record} {k k' : String} (v : Val)
    (hne : k' ≠ k) : getVal (setVal r k v) k' = getVal r k' := by
  induction r with
  | nil => rfl
  | cons p rest ih =>
    show getVal ((if p.1 = k then (p.1, v) else p) :: setVal rest k v) k' = _
    by_cases hp : p.1 = k
    · rw [if_pos hp]
      have hp' : ¬(p.1 = k') := fun he => hne (he.symm.trans hp)
      show (if p.1 = k' then some v else getVal (setVal rest k v) k') = _
      rw [if_neg hp']
      show _ = (if p.1 = k' then some p.2 else getVal rest k')
      rw [if_neg hp']
      exact ih
    · rw [if_neg hp]
      show (if p.1 = k' then some p.2 else getVal (setVal rest k v) k') =
        (if p.1 = k' then some p.2 else getVal rest k')
      by_cases hp' : p.1 = k'
      · rw [if_pos hp', if_pos hp']
      · rw [if_neg hp', if_neg hp']
        exact ih

theorem getVal_setVal_none {r : Record} {k : String} (v : Val)
    (h : getVal r k = none) : getVal (setVal r k v) k = none := by
  induction r with
  | nil => rfl
  | cons p rest ih =>
    by_cases hp : p.1 = k
    · have : (if p.1 = k then some p.2 else getVal rest k) = none := h
      rw [if_pos hp] at this
      cases this
    · show getVal ((if p.1 = k then (p.1, v) else p) :: setVal rest k v) k = none
      rw [if_neg hp]
      show (if p.1 = k then some p.2 else getVal (setVal rest k v) k) = none
      rw [if_neg hp]
      have h' : getVal rest k = none := by
        have : (if p.1 = k then some p.2 else getVal rest k) = none := h
        rwa [if_neg hp] at this
      exact ih h'

theorem intifyKey_other {r r2 : Record} {k k' : String}
    (h : intifyKey r k = some r2) (hne : k' ≠ k) :
    getVal r2 k' = getVal r k' := by
  unfold intifyKey at h
  cases hg : getVal r k with
  | none =>
    rw [hg] at h
    replace h : some r = some r2 := h
    obtain rfl : r = r2 := by simpa using h
    rfl
  | some v =>
    rw [hg] at h
    replace h : (pyInt v).map (fun n => setVal r k (Val.vInt n)) = some r2 := h
    cases hn : pyInt v with
    | none => rw [hn] at h; cases h
    | some n =>
      rw [hn] at h
      obtain rfl : setVal r k (.vInt n) = r2 := by simpa using h
      exact getVal_setVal_other _ hne

theorem intifyKey_none {r r2 : Record} {k : String}
    (h : intifyKey r k = some r2) (hg : getVal r k = none) :
    r2 = r := by
  unfold intifyKey at h
  rw [hg] at h
  replace h : some r = some r2 := h
  simpa using h.symm

theorem intifyKey_present {r r2 : Record} {k : String} {v : Val}
    (h : intifyKey r k = some r2) (hg : getVal r k = some v) :
    ∃ n, pyInt v = some n ∧ getVal r2 k = some (.vInt n) := by
  unfold intifyKey at h
  rw [hg] at h
  replace h : (pyInt v).map (fun n => setVal r k (Val.vInt n)) = some r2 := h
  cases hn : pyInt v with
  | none => rw [hn] at h; cases h
  | some n =>
    rw [hn] at h
    obtain rfl : setVal r k (.vInt n) = r2 := by simpa using h
    exact ⟨n, rfl, getVal_setVal_self _ hg⟩

theorem intFold_other {ks : List String} {r r1 : Record} {k : String}
    (h : ks.foldlM intifyKey r = some r1) (hk : k ∉ ks) :
    getVal r1 k = getVal r k := by
  induction ks generalizing r with
  | nil =>
    replace h : some r = some r1 := h
    obtain rfl : r = r1 := by simpa using h
    rfl
  | cons k0 rest ih =>
    replace h : intifyKey r k0 >>= (fun b => rest.foldlM intifyKey b) = some r1 := h
    cases h2 : intifyKey r k0 with
    | none =>
      rw [h2] at h
      replace h : (none : Option Record) = some r1 := h
      cases h
    | some r2 =>
      rw [h2] at h
      replace h : rest.foldlM intifyKey r2 = some r1 := h
      have hne : k ≠ k0 := fun he => hk (he ▸ List.mem_cons_self k0 rest)
      rw [ih h (fun hm => hk (List.mem_cons_of_mem k0 hm))]
      exact intifyKey_other h2 hne

theorem intFold_at {ks : List String} {r r1 : Record} {k : String}
    (hnd : ks.Nodup) (hk : k ∈ ks) (h : ks.foldlM intifyKey r = some r1) :
    (getVal r k = none → getVal r1 k = none) ∧
    (∀ v, getVal r k = some v →
      ∃ n, pyInt v = some n ∧ getVal r1 k = some (.vInt n)) := by
  induction ks generalizing r with
  | nil => cases hk
  | cons k0 rest ih =>
    replace h : intifyKey r k0 >>= (fun b => rest.foldlM intifyKey b) = some r1 := h
    cases h2 : intifyKey r k0 with
    | none =>
      rw [h2] at h
      replace h : (none : Option Record) = some r1 := h
      cases h
    | some r2 =>
      rw [h2] at h
      replace h : rest.foldlM intifyKey r2 = some r1 := h
      rcases List.mem_cons.1 hk with rfl | hk'
      · have hrest : k ∉ rest := (List.nodup_cons.1 hnd).1
        constructor
        · intro hg
          obtain rfl := intifyKey_none h2 hg
          rw [intFold_other h hrest]
          exact hg
        · intro v hg
          obtain ⟨n, hn, hv2⟩ := intifyKey_present h2 hg
          refine ⟨n, hn, ?_⟩
          rw [intFold_other h hrest]
          exact hv2
      · have hne : k ≠ k0 := by
          rintro rfl
          exact (List.nodup_cons.1 hnd).1 hk'
        have hcur := intifyKey_other h2 hne
        obtain ⟨ih1, ih2⟩ := ih (List.nodup_cons.1 hnd).2 hk' h
        exact ⟨fun hg => ih1 (hcur.trans hg), fun v hg => ih2 v (hcur.trans hg)⟩

theorem nullify_other {k k' : String} (r : Record) (hne : k' ≠ k) :
    getVal (nullifyFalsy r k) k' = getVal r k' := by
  unfold nullifyFalsy
  cases hg : getVal r k with
  | none => rfl
  | some v =>
    show getVal (if pyTruthy v then r else setVal r k Val.vNull) k' = getVal r k'
    by_cases ht : pyTruthy v
    · rw [if_pos ht]
    · rw [if_neg ht]
      exact getVal_setVal_other _ hne

theorem nullify_self (r : Record) (k : String) :
    getVal (nullifyFalsy r k) k =
      (getVal r k).map (fun v => if pyTruthy v then v else .vNull) := by
  unfold nullifyFalsy
  cases hg : getVal r k with
  | none => exact hg
  | some v =>
    show getVal (if pyTruthy v then r else setVal r k Val.vNull) k =
      Option.map (fun v => if pyTruthy v then v else Val.vNull) (some v)
    by_cases ht : pyTruthy v
    · rw [if_pos ht, hg]
      simp [ht]
    · rw [if_neg ht, getVal_setVal_self _ hg]
      simp [ht]

theorem nullify2_getVal (r1 : Record) (k : String) :
    getVal (falsyNullKeys.foldl nullifyFalsy r1) k =
      if k = "time_read" ∨ k = "time_favorited" then
        (getVal r1 k).map (fun v => if pyTruthy v then v else .vNull)
      else getVal r1 k := by
  show getVal (nullifyFalsy (nullifyFalsy r1 "time_read") "time_favorited") k = _
  by_cases h1 : k = "time_read"
  · subst h1
    rw [nullify_other _ (by decide), nullify_self, if_pos (Or.inl rfl)]
  · by_cases h2 : k = "time_favorited"
    · subst h2
      rw [nullify_self, nullify_other _ (by decide), if_pos (Or.inr rfl)]
    · rw [nullify_other _ h2, nullify_other _ h1,
        if_neg (fun hc => hc.elim h1 h2)]

/-- **C7 (amended).** For every record on which `transform` returns
(raises no exception): every known-set field present in the record has
been converted to an integer; for `time_read` and `time_favorited` a
zero value is collapsed to `None` rather than kept; every field not in
the known set passes through unchanged; and a field absent from the
input stays absent (it is not materialised as an explicit `None`).
An unconvertible present value — e.g. the empty string — makes
`transform` raise instead (see the counterexample). -/
theorem transform_contract (r r' : Record) (h : transform r = some r') :
    (∀ k ∈ intKeys, ∀ v, getVal r k = some v →
      ∃ n, pyInt v = some n ∧
        getVal r' k = some (if (k = "time_read" ∨ k = "time_favorited") ∧ n = 0
          then Val.vNull else Val.vInt n)) ∧
    (∀ k, k ∉ intKeys → getVal r' k = getVal r k) ∧
    (∀ k, getVal r k = none → getVal r' k = none) := by
  unfold transform at h
  cases hf : intKeys.foldlM intifyKey r with
  | none =>
    rw [hf] at h
    replace h : (none : Option Record) = some r' := h
    cases h
  | some r1 =>
    rw [hf] at h
    replace h : some (falsyNullKeys.foldl nullifyFalsy r1) = some r' := h
    obtain rfl : falsyNullKeys.foldl nullifyFalsy r1 = r' := by simpa using h
    refine ⟨?_, ?_, ?_⟩
    · intro k hk v hg
      obtain ⟨-, h2⟩ := intFold_at (show intKeys.Nodup by decide) hk hf
      obtain ⟨n, hn, h1v⟩ := h2 v hg
      refine ⟨n, hn, ?_⟩
      rw [nullify2_getVal]
      by_cases htf : k = "time_read" ∨ k = "time_favorited"
      · rw [if_pos htf, h1v]
        by_cases hn0 : n = 0
        · subst hn0
          simp [pyTruthy, htf]
        · simp [pyTruthy, hn0, htf]
      · rw [if_neg htf, h1v, if_neg (fun hc => htf hc.1)]
    · intro k hk
      have htf : ¬(k = "time_read" ∨ k = "time_favorited") := by
        rintro (rfl | rfl)
        · exact hk (by decide)
        · exact hk (by decide)
      rw [nullify2_getVal, if_neg htf]
      exact intFold_other hf hk
    · intro k hg
      rw [nullify2_getVal]
      by_cases hk : k ∈ intKeys
      · obtain ⟨h1, -⟩ := intFold_at (show intKeys.Nodup by decide) hk hf
        have h1n := h1 hg
        by_cases htf : k = "time_read" ∨ k = "time_favorited"
        · rw [if_pos htf, h1n]
          rfl
        · rw [if_neg htf]
          exact h1n
      · have hother := intFold_other hf hk
        have htf : ¬(k = "time_read" ∨ k = "time_favorited") := by
          rintro (rfl | rfl)
          · exact hk (by decide)
          · exact hk (by decide)
        rw [if_neg htf, hother]
        exact hg

/-- **C7 counterexample.** The claim says a falsy `time_read` value —
including the empty string — is collapsed to an explicit `None`; in the
code the integer-conversion loop runs first and `int("")` raises, so
`transform` fails on this record instead of producing `time_read = None`. -/
theorem transform_empty_string_counterexample :
    transform [("time_read", Val.vStr "")] = none ∧
    ¬ transform [("time_read", Val.vStr "")] =
        some [("time_read", Val.vNull)] := by decide

/-- Witness for C7 (amended) at a concrete record: `"0"` timestamps
collapse to `None`, unknown fields pass through. -/
theorem transform_contract_witness :
    transform [("time_read", Val.vStr "0"), ("lang", Val.vStr "en")] =
      some [("time_read", Val.vNull), ("lang", Val.vStr "en")] ∧
    getVal [("time_read", Val.vNull), ("lang", Val.vStr "en")] "lang" =
      getVal [("time_read", Val.vStr "0"), ("lang", Val.vStr "en")] "lang" :=
  ⟨by decide,
    (transform_contract [("time_read", Val.vStr "0"), ("lang", Val.vStr "en")]
      [("time_read", Val.vNull), ("lang", Val.vStr "en")] (by decide)).2.1
      "lang" (by decide)⟩

/-! ## The paginated source iterator `FetchItems.__iter__`

The network is modelled as a script: the list of HTTP responses the
`requests.post` calls return, consumed one per loop iteration
(utils.py lines 111–171). -/

/-- Does `needle` lead `hay` (i.e. is it a prefix)? -/
def leadsWith : List Char → List Char → Bool
  | [], _ => true
  | _ :: _, [] => false
  | a :: n, b :: h => a = b && leadsWith n h

/-- Is `needle` a contiguous subsequence of the character list? -/
def containsSeq (needle : List Char) : List Char → Bool
  | [] => needle.isEmpty
  | c :: t => leadsWith needle (c :: t) || containsSeq needle t

/-- Python `needle in hay` on strings. -/
def strContains (hay needle : String) : Bool := containsSeq needle.data hay.data

/-- `"413" in str(error_msg) or "Payload Too Large" in str(error_msg)`
(utils.py line 147). -/
def payloadTooLarge (msg : String) : Bool :=
  strContains msg "413" || strContains msg "Payload Too Large"

/-- One `/v3/get` HTTP response: its status code, the `error` field of
the JSON body (`none` = absent or JSON null) and the values of the
`list` field (`none` = absent or null). -/
structure PageResponse where
  status_code : Nat
  error : Option String
  list : Option (List Record)
deriving DecidableEq

/-- The iterator's mutable state: the offset cursor, the current page
size and the consecutive-503 retry counter. -/
structure IterState where
  offset : Nat
  page_size : Nat
  retries : Nat
deriving DecidableEq, Repr

/-- What one loop iteration does with the response it received. -/
inductive StepOut where
  | retry503 (s : IterState)
  | httpError (code : Nat)
  | shrinkRetry (s : IterState)
  | fatal (msg : String)
  | done
  | yieldAdvance (records : List Record) (s : IterState)
deriving DecidableEq

/-- `list((page.get("list") or {}).values())` (utils.py line 158). -/
def pageItems (p : PageResponse) : List Record := p.list.getD []

/-- One iteration of the `while True` loop (utils.py lines 115–171) on
the response received for the current request. -/
def step (s : IterState) (p : PageResponse) : StepOut :=
  if p.status_code = 503 ∧ s.retries < 5 then
    .retry503 { s with retries := s.retries + 1 }
  else if 400 ≤ p.status_code ∧ p.status_code < 600 then
    .httpError p.status_code
  else
    match p.error with
    | some msg =>
      if payloadTooLarge msg then
        if 10 < s.page_size then
          .shrinkRetry ⟨s.offset, max 10 (s.page_size / 2), 0⟩
        else
          .fatal ("Pocket API error: Even minimum page size (10) is too large: "
            ++ msg)
      else
        .fatal ("Pocket API error: " ++ msg)
    | none =>
      if pageItems p = [] then .done
      else .yieldAdvance (pageItems p) ⟨s.offset + s.page_size, s.page_size, 0⟩

/-- The observable outcome of running the iterator against a response
script: the sequence ended normally, an exception escaped after yielding
some records, or the script ran out (a model artefact, not a program
behaviour). -/
inductive RunResult where
  | ended (records : List Record)
  | failed (msg : String) (records : List Record)
  | starved (records : List Record)
deriving DecidableEq

/-- Prepend records already yielded to a run outcome. -/
def RunResult.withPre (l : List Record) : RunResult → RunResult
  | .ended rs => .ended (l ++ rs)
  | .failed m rs => .failed m (l ++ rs)
  | .starved rs => .starved (l ++ rs)

/-- Run the iterator: each loop iteration consumes the next scripted
response. -/
def run (s : IterState) : List PageResponse → RunResult
  | [] => .starved []
  | p :: rest =>
    match step s p with
    | .retry503 s' => run s' rest
    | .shrinkRetry s' => run s' rest
    | .httpError code => .failed ("HTTPError " ++ toString code) []
    | .fatal msg => .failed msg []
    | .done => .ended []
    | .yieldAdvance l s' => (run s' rest).withPre l

theorem step_success_page (s : IterState) (l : List Record) :
    step s ⟨200, none, some l⟩ =
      if l = [] then .done
      else .yieldAdvance l ⟨s.offset + s.page_size, s.page_size, 0⟩ := by
  simp [step, pageItems]

/-- **C3.** An `error` field holding null (or absent) is not treated as
an error: on a page response with `error` null and a non-empty list the
iterator yields exactly the listed records and continues at the advanced
offset; an `error` field with a non-null value (other than the
payload-too-large shape) is fatal and propagates as
`Exception("Pocket API error: ...")`, yielding nothing. -/
theorem error_field_null_vs_nonnull
    (s : IterState) (l : List Record) (rest : List PageResponse)
    (msg : String) (lst : Option (List Record))
    (hl : l ≠ []) (hm : payloadTooLarge msg = false) :
    run s (⟨200, none, some l⟩ :: rest) =
      (run ⟨s.offset + s.page_size, s.page_size, 0⟩ rest).withPre l ∧
    step s ⟨200, some msg, lst⟩ = .fatal ("Pocket API error: " ++ msg) ∧
    run s (⟨200, some msg, lst⟩ :: rest) =
      .failed ("Pocket API error: " ++ msg) [] := by
  have hstep : step s ⟨200, none, some l⟩ =
      .yieldAdvance l ⟨s.offset + s.page_size, s.page_size, 0⟩ := by
    rw [step_success_page]
    exact if_neg hl
  have hstep2 : step s ⟨200, some msg, lst⟩ =
      .fatal ("Pocket API error: " ++ msg) := by
    simp [step, hm]
  refine ⟨?_, hstep2, ?_⟩
  · show (match step s ⟨200, none, some l⟩ with
      | .retry503 s' => run s' rest
      | .shrinkRetry s' => run s' rest
      | .httpError code => .failed ("HTTPError " ++ toString code) []
      | .fatal msg => .failed msg []
      | .done => .ended []
      | .yieldAdvance l s' => (run s' rest).withPre l) = _
    rw [hstep]
  · show (match step s ⟨200, some msg, lst⟩ with
      | .retry503 s' => run s' rest
      | .shrinkRetry s' => run s' rest
      | .httpError code => .failed ("HTTPError " ++ toString code) []
      | .fatal msg => .failed msg []
      | .done => .ended []
      | .yieldAdvance l s' => (run s' rest).withPre l) = _
    rw [hstep2]

/-- Witness for C3: a concrete success page with `error` null yields its
record; a concrete non-null error value is fatal. -/
theorem error_field_null_vs_nonnull_witness :
    run ⟨0, 50, 0⟩ (⟨200, none, some [[("item_id", Val.vStr "1")]]⟩ ::
        [⟨200, none, some []⟩]) =
      (run ⟨0 + 50, 50, 0⟩ [⟨200, none, some []⟩]).withPre
        [[("item_id", Val.vStr "1")]] ∧
    step ⟨0, 50, 0⟩ ⟨200, some "Invalid request", none⟩ =
      .fatal ("Pocket API error: " ++ "Invalid request") ∧
    run ⟨0, 50, 0⟩ (⟨200, some "Invalid request", none⟩ ::
        [⟨200, none, some []⟩]) =
      .failed ("Pocket API error: " ++ "Invalid request") [] :=
  error_field_null_vs_nonnull ⟨0, 50, 0⟩ [[("item_id", Val.vStr "1")]]
    [⟨200, none, some []⟩] "Invalid request" none (by decide) (by decide)

/-- **C4.** On a payload-too-large error (error text containing `"413"`
or `"Payload Too Large"`) at page size above 10, the iterator halves the
page size (with a floor of 10) and retries the same offset with the 503
retry counter reset to 0; at page size at most 10 it raises instead of
looping. -/
theorem payload_too_large_behavior
    (s : IterState) (msg : String) (lst : Option (List Record))
    (rest : List PageResponse) (hm : payloadTooLarge msg = true) :
    (10 < s.page_size →
      step s ⟨200, some msg, lst⟩ =
        .shrinkRetry ⟨s.offset, max 10 (s.page_size / 2), 0⟩ ∧
      run s (⟨200, some msg, lst⟩ :: rest) =
        run ⟨s.offset, max 10 (s.page_size / 2), 0⟩ rest ∧
      10 ≤ max 10 (s.page_size / 2)) ∧
    (s.page_size ≤ 10 →
      run s (⟨200, some msg, lst⟩ :: rest) =
        .failed ("Pocket API error: Even minimum page size (10) is too large: "
          ++ msg) []) := by
  constructor
  · intro hps
    have hstep : step s ⟨200, some msg, lst⟩ =
        .shrinkRetry ⟨s.offset, max 10 (s.page_size / 2), 0⟩ := by
      simp [step, hm, hps]
    refine ⟨hstep, ?_, le_max_left _ _⟩
    show (match step s ⟨200, some msg, lst⟩ with
      | .retry503 s' => run s' rest
      | .shrinkRetry s' => run s' rest
      | .httpError code => .failed ("HTTPError " ++ toString code) []
      | .fatal msg => .failed msg []
      | .done => .ended []
      | .yieldAdvance l s' => (run s' rest).withPre l) = _
    rw [hstep]
  · intro hps
    have hstep : step s ⟨200, some msg, lst⟩ =
        .fatal ("Pocket API error: Even minimum page size (10) is too large: "
          ++ msg) := by
      simp [step, hm, Nat.not_lt.2 hps]
    show (match step s ⟨200, some msg, lst⟩ with
      | .retry503 s' => run s' rest
      | .shrinkRetry s' => run s' rest
      | .httpError code => .failed ("HTTPError " ++ toString code) []
      | .fatal msg => .failed msg []
      | .done => .ended []
      | .yieldAdvance l s' => (run s' rest).withPre l) = _
    rw [hstep]

/-- Witness for C4: page size 100 halves to 50 at the same offset; page
size 10 fails fatally. -/
theorem payload_too_large_behavior_witness :
    step ⟨0, 100, 0⟩ ⟨200, some "413: Payload Too Large", none⟩ =
      .shrinkRetry ⟨0, 50, 0⟩ ∧
    run ⟨0, 10, 0⟩ [⟨200, some "413: Payload Too Large", none⟩] =
      .failed ("Pocket API error: Even minimum page size (10) is too large: "
        ++ "413: Payload Too Large") [] := by
  constructor
  · have h := (payload_too_large_behavior ⟨0, 100, 0⟩ "413: Payload Too Large"
      none [] (by decide)).1 (by decide)
    simpa using h.1
  · exact (payload_too_large_behavior ⟨0, 10, 0⟩ "413: Payload Too Large"
      none [⟨200, some "413: Payload Too Large", none⟩] (by decide)).2
      (by decide)

/-- **C8.** The iterator terminates exactly when a fetched page has zero
records: an empty (or missing) `list` ends the sequence with no records
from that page and no exception, whatever responses would follow; a page
with missing `list` counts as an empty page; a non-empty page advances
the offset by the current page size. -/
theorem empty_page_terminates
    (s : IterState) (rest : List PageResponse) (l : List Record)
    (hl : l ≠ []) :
    run s (⟨200, none, some []⟩ :: rest) = .ended [] ∧
    run s (⟨200, none, none⟩ :: rest) = .ended [] ∧
    pageItems ⟨200, none, none⟩ = pageItems ⟨200, none, some []⟩ ∧
    step s ⟨200, none, some l⟩ =
      .yieldAdvance l ⟨s.offset + s.page_size, s.page_size, 0⟩ := by
  have h1 : step s ⟨200, none, some []⟩ = .done := by
    rw [step_success_page]
    rfl
  have h2 : step s ⟨200, none, none⟩ = .done := by
    simp [step, pageItems]
  refine ⟨?_, ?_, rfl, ?_⟩
  · show (match step s ⟨200, none, some []⟩ with
      | .retry503 s' => run s' rest
      | .shrinkRetry s' => run s' rest
      | .httpError code => .failed ("HTTPError " ++ toString code) []
      | .fatal msg => .failed msg []
      | .done => .ended []
      | .yieldAdvance l s' => (run s' rest).withPre l) = _
    rw [h1]
  · show (match step s ⟨200, none, none⟩ with
      | .retry503 s' => run s' rest
      | .shrinkRetry s' => run s' rest
      | .httpError code => .failed ("HTTPError " ++ toString code) []
      | .fatal msg => .failed msg []
      | .done => .ended []
      | .yieldAdvance l s' => (run s' rest).withPre l) = _
    rw [h2]
  · rw [step_success_page]
    exact if_neg hl

/-- Witness for C8 at a concrete state and script. -/
theorem empty_page_terminates_witness :
    run ⟨30, 50, 0⟩ [⟨200, none, some []⟩, ⟨503, none, none⟩] = .ended [] ∧
    run ⟨30, 50, 0⟩ [⟨200, none, none⟩, ⟨503, none, none⟩] = .ended [] ∧
    step ⟨30, 50, 0⟩ ⟨200, none, some [[("a", Val.vNull)]]⟩ =
      .yieldAdvance [[("a", Val.vNull)]] ⟨30 + 50, 50, 0⟩ := by
  have h := empty_page_terminates ⟨30, 50, 0⟩ [⟨503, none, none⟩]
    [[("a", Val.vNull)]] (by decide)
  exact ⟨h.1, h.2.1, h.2.2.2⟩

/-! ## The export pump: `KarakeepClient.create_bookmark` and
`export_items_to_karakeep`

The destination network is again a script: the outcomes of the
successive `requests.post` attempts (utils.py lines 221–279). Tag
attachment after a successful create (lines 497–537) is not modelled: it
only issues additional tag calls and can never change an item's outcome
status (its failures are logged and swallowed, lines 529–530). -/

/-- One attempt outcome: an HTTP response (with its JSON body when the
body decodes, and its raw text), or a `Timeout`/`RequestException`. -/
inductive Attempt where
  | resp (status : Nat) (body : Option Record) (text : String)
  | netErr (msg : String)
deriving DecidableEq

/-- Python `str()` of a JSON value interpolated into an f-string. -/
def valToPyStr : Val → String
  | .vStr s => s
  | .vInt n => toString n
  | .vNull => "None"

/-- `error_data.get(k, dflt)` rendered as text. -/
def jsonGetStr (b : Record) (k : String) (dflt : String) : String :=
  match getVal b k with
  | some v => valToPyStr v
  | none => dflt

/-- The message of the exception raised on a 4xx response with a JSON
body (utils.py lines 250–253). -/
def karakeepErrMsg (st : Nat) (b : Record) : String :=
  "Karakeep API error (" ++ jsonGetStr b "code" "unknown" ++ "): " ++
    jsonGetStr b "message" ("HTTP " ++ toString st ++ " error")

/-- `response.status_code in [429, 503, 504]` (utils.py line 235). -/
def retryableStatus (st : Nat) : Bool := st = 429 || st = 503 || st = 504

/-- Result of one `create_bookmark` call: the parsed response body on
success, or the escaping exception's message; both carry the number of
HTTP attempts made and the backoff sleeps performed. `starved` means the
model's script ran out. -/
inductive CBResult where
  | ok (body : Record) (attempts : Nat) (sleeps : List Nat)
  | err (msg : String) (attempts : Nat) (sleeps : List Nat)
  | starved (attempts : Nat)
deriving DecidableEq

/-- The `while retries < 5` loop of `create_bookmark` (utils.py lines
221–279). `fuel = 5 - retries` makes the recursion structural; a 5xx
status other than 503/504 reaches `raise_for_status`, whose `HTTPError`
is a `RequestException` and is therefore caught and retried by the
`except` clause; a non-JSON body on a success status makes
`response.json()` raise out of the loop. -/
def cbLoop (rb : Nat) : Nat → Nat → List Attempt → Nat → List Nat → CBResult
  | 0, _, _, attempts, sleeps =>
    .err "Karakeep API request failed after 5 retries" attempts sleeps
  | fuel + 1, retries, script, attempts, sleeps =>
    match script with
    | [] => .starved attempts
    | .netErr _ :: rest =>
      cbLoop rb fuel (retries + 1) rest (attempts + 1)
        (sleeps ++ [(retries + 1) * rb])
    | .resp st body text :: rest =>
      if retryableStatus st then
        cbLoop rb fuel (retries + 1) rest (attempts + 1)
          (sleeps ++ [(retries + 1) * rb])
      else if 400 ≤ st ∧ st < 500 then
        match body with
        | some b => .err (karakeepErrMsg st b) (attempts + 1) sleeps
        | none => .err ("Karakeep API error: HTTP " ++ toString st ++ " - "
            ++ text) (attempts + 1) sleeps
      else if 500 ≤ st ∧ st < 600 then
        cbLoop rb fuel (retries + 1) rest (attempts + 1)
          (sleeps ++ [(retries + 1) * rb])
      else
        match body with
        | some b => .ok b (attempts + 1) sleeps
        | none => .err "JSONDecodeError" (attempts + 1) sleeps

/-- `create_bookmark` with retry base delay `rb` against a script. -/
def createBookmark (rb : Nat) (script : List Attempt) : CBResult :=
  cbLoop rb 5 0 script 0 []

/-- One row of the `items` table as the export query reads it
(utils.py lines 429–457); `none` models SQL NULL. -/
structure ItemRow where
  item_id : Int
  resolved_title : Option String
  given_title : Option String
  resolved_url : Option String
  given_url : Option String
  excerpt : Option String
  status : Int
  favorite : Int
deriving DecidableEq, Repr

/-- Python truthiness of a nullable string column. -/
def sTruthy : Option String → Bool
  | none => false
  | some s => s ≠ ""

/-- Python `a or b` on nullable strings. -/
def pyOrS (a b : Option String) : Option String := if sTruthy a then a else b

/-- `row["resolved_title"] or row["given_title"] or "Untitled"`
(utils.py line 478). -/
def rowTitle (r : ItemRow) : String :=
  (pyOrS r.resolved_title (pyOrS r.given_title (some "Untitled"))).getD "Untitled"

/-- `row["resolved_url"] or row["given_url"]` (utils.py line 479). -/
def rowUrl (r : ItemRow) : Option String := pyOrS r.resolved_url r.given_url

/-- The WHERE clause: optional exact status match AND optional
favorite-only, combined with AND (utils.py lines 411–421). -/
def rowMatches (fs : Option Int) (ffav : Bool) (r : ItemRow) : Bool :=
  (match fs with
   | some s => r.status = s
   | none => true) && (!ffav || r.favorite = 1)

/-- `ORDER BY item_id` comparison. -/
def rowLe (a b : ItemRow) : Prop := a.item_id ≤ b.item_id

instance : DecidableRel rowLe :=
  fun a b => inferInstanceAs (Decidable (a.item_id ≤ b.item_id))

instance : IsTotal ItemRow rowLe := ⟨fun a b => Int.le_total a.item_id b.item_id⟩

instance : IsTrans ItemRow rowLe := ⟨fun _ _ _ h1 h2 => le_trans h1 h2⟩

/-- The export SELECT (utils.py lines 410–461): filter, order by
`item_id`, then `LIMIT ? OFFSET ?` where the no-limit sentinel is
SQLite's `-1` (modelled as `none`), distinct from `some 0`. -/
def selectExportRows (tbl : List ItemRow) (fs : Option Int) (ffav : Bool)
    (lim : Option Nat) (off : Nat) : List ItemRow :=
  let page := (List.insertionSort rowLe (tbl.filter (rowMatches fs ffav))).drop off
  match lim with
  | none => page
  | some n => page.take n

/-- The per-item outcome dict yielded by the pump (utils.py lines
485–489, 539–546, 550–556). -/
inductive Outcome where
  | skipped (item_id : Int) (reason : String)
  | success (item_id : Int) (title url : String) (response : Record)
  | error (item_id : Int) (title url : String) (msg : String)
deriving DecidableEq

/-- Process one selected row (utils.py lines 469–556): resolve title and
URL, skip when the URL is missing/empty without any remote call,
otherwise perform the remote write and report success or the caught
exception's message. The second component counts the HTTP attempts made
for this item; `none` only when the model's script is exhausted. -/
def exportRow (rb : Nat) (script : List Attempt) (r : ItemRow) :
    Option (Outcome × Nat) :=
  if sTruthy (rowUrl r) = false then
    some (.skipped r.item_id "no_url", 0)
  else
    match createBookmark rb script with
    | .ok body n _ => some (.success r.item_id (rowTitle r)
        ((rowUrl r).getD "") body, n)
    | .err m n _ => some (.error r.item_id (rowTitle r)
        ((rowUrl r).getD "") m, n)
    | .starved _ => none

/-- The pump over the selected rows: one outcome per row, later rows
processed regardless of earlier failures (`net` gives each item's
scripted destination responses). -/
def exportPump (rb : Nat) (net : Int → List Attempt) (rows : List ItemRow) :
    List (Option (Outcome × Nat)) :=
  rows.map (fun r => exportRow rb (net r.item_id) r)

/-- The attempt outcomes the claim lists as retried: 429/503/504
responses and network timeout/connection errors. -/
def claimRetryable : Attempt → Bool
  | .resp st _ _ => retryableStatus st
  | .netErr _ => true

theorem cbLoop_retry_step (rb fuel retries : Nat) (a : Attempt)
    (script : List Attempt) (attempts : Nat) (sleeps : List Nat)
    (ha : claimRetryable a = true) :
    cbLoop rb (fuel + 1) retries (a :: script) attempts sleeps =
      cbLoop rb fuel (retries + 1) script (attempts + 1)
        (sleeps ++ [(retries + 1) * rb]) := by
  cases a with
  | netErr m => rfl
  | resp st body text =>
    have hr : retryableStatus st = true := ha
    simp [cbLoop, hr]

/-- **C5.** `create_bookmark` retries on 429/503/504 and on network
timeout/connection errors with linear backoff `attempt_number ×
retry_base_delay`, making five attempts in all before the per-item
outcome becomes "error" with the exhausted-retries message; a 4xx status
other than 429 is never retried — exactly one attempt — and immediately
yields an "error" outcome embedding the destination's structured error
code and message; the pump then still processes subsequent items. -/
theorem create_bookmark_retry_policy
    (b st : Nat) (body : Record) (text : String)
    (a1 a2 a3 a4 a5 : Attempt) (rest5 rest : List Attempt)
    (r : ItemRow) (net : Int → List Attempt) (rows : List ItemRow)
    (ha : ∀ a ∈ [a1, a2, a3, a4, a5], claimRetryable a = true)
    (h4a : 400 ≤ st) (h4b : st < 500) (h4c : st ≠ 429)
    (hurl : sTruthy (rowUrl r) = true) :
    createBookmark b (a1 :: a2 :: a3 :: a4 :: a5 :: rest5) =
      .err "Karakeep API request failed after 5 retries" 5
        [1 * b, 2 * b, 3 * b, 4 * b, 5 * b] ∧
    createBookmark b (.resp st (some body) text :: rest) =
      .err (karakeepErrMsg st body) 1 [] ∧
    exportRow b (.resp st (some body) text :: rest) r =
      some (.error r.item_id (rowTitle r) ((rowUrl r).getD "")
        (karakeepErrMsg st body), 1) ∧
    exportPump b net (r :: rows) =
      exportRow b (net r.item_id) r :: exportPump b net rows := by
  have hnr : retryableStatus st = false := by
    simp only [retryableStatus, Bool.or_eq_false_iff, decide_eq_false_iff_not]
    omega
  have h2 : createBookmark b (.resp st (some body) text :: rest) =
      .err (karakeepErrMsg st body) 1 [] := by
    show cbLoop b 5 0 _ 0 [] = _
    simp [cbLoop, hnr, h4a, h4b]
  refine ⟨?_, h2, ?_, rfl⟩
  · show cbLoop b 5 0 _ 0 [] = _
    rw [cbLoop_retry_step _ _ _ _ _ _ _ (ha a1 (by simp)),
      cbLoop_retry_step _ _ _ _ _ _ _ (ha a2 (by simp)),
      cbLoop_retry_step _ _ _ _ _ _ _ (ha a3 (by simp)),
      cbLoop_retry_step _ _ _ _ _ _ _ (ha a4 (by simp)),
      cbLoop_retry_step _ _ _ _ _ _ _ (ha a5 (by simp))]
    simp [cbLoop]
  · simp [exportRow, hurl, h2]

/-- The destination's structured 400 error body in the witness. -/
def c5wBody : Record :=
  [("code", Val.vStr "VALIDATION_ERROR"),
   ("message", Val.vStr "Title is required and cannot be empty")]

/-- A concrete exportable row. -/
def c5wRow : ItemRow :=
  ⟨1, some "Test Article", none, some "https://example.com", none,
    some "Test", 0, 0⟩

/-- Witness for C5: five retryable failures exhaust the budget with
backoff 3, 6, 9, 12, 15; a 400 with a structured body is one attempt and
embeds its code and message. -/
theorem create_bookmark_retry_policy_witness :
    createBookmark 3 [.netErr "timed out", .resp 429 none "",
      .resp 503 none "", .resp 504 none "", .netErr "conn"] =
      .err "Karakeep API request failed after 5 retries" 5
        [1 * 3, 2 * 3, 3 * 3, 4 * 3, 5 * 3] ∧
    createBookmark 3 [.resp 400 (some c5wBody) ""] =
      .err (karakeepErrMsg 400 c5wBody) 1 [] ∧
    karakeepErrMsg 400 c5wBody =
      "Karakeep API error (VALIDATION_ERROR): Title is required and cannot be empty" ∧
    exportRow 3 [.resp 400 (some c5wBody) ""] c5wRow =
      some (.error 1 "Test Article" "https://example.com"
        (karakeepErrMsg 400 c5wBody), 1) := by
  have h := create_bookmark_retry_policy 3 400 c5wBody ""
    (.netErr "timed out") (.resp 429 none "") (.resp 503 none "")
    (.resp 504 none "") (.netErr "conn") [] [] c5wRow
    (fun _ => [.resp 400 (some c5wBody) ""]) []
    (by decide) (by decide) (by decide) (by decide) (by decide)
  exact ⟨h.1, h.2.1, by decide, h.2.2.1⟩

/-- **C6.** A stored item whose resolved and given URLs are both
null/empty yields the outcome `{status: "skipped", reason: "no_url"}`
and triggers zero remote calls; when a resolved URL is present (truthy)
it takes precedence over the given URL. -/
theorem export_skips_no_url
    (rb : Nat) (script : List Attempt) (r r2 : ItemRow)
    (hres : sTruthy r.resolved_url = false)
    (hgiv : sTruthy r.given_url = false)
    (hres2 : sTruthy r2.resolved_url = true) :
    exportRow rb script r = some (.skipped r.item_id "no_url", 0) ∧
    rowUrl r2 = r2.resolved_url := by
  have hu : sTruthy (rowUrl r) = false := by
    unfold rowUrl pyOrS
    rw [hres]
    simpa using hgiv
  refine ⟨?_, ?_⟩
  · simp [exportRow, hu]
  · unfold rowUrl pyOrS
    rw [hres2]
    simp

/-- Witness for C6: the no-URL row from the repository's test is
skipped with zero remote calls even with responses scripted. -/
theorem export_skips_no_url_witness :
    exportRow 3 [.resp 201 (some [("id", Val.vStr "b1")]) ""]
      ⟨1, some "No URL Item", none, none, none, some "No URL available", 0, 0⟩ =
      some (.skipped 1 "no_url", 0) ∧
    rowUrl c5wRow = c5wRow.resolved_url :=
  export_skips_no_url 3 [.resp 201 (some [("id", Val.vStr "b1")]) ""]
    ⟨1, some "No URL Item", none, none, none, some "No URL available", 0, 0⟩
    c5wRow (by decide) (by decide) (by decide)

/-- A scenario row with the given id, status and favorite flag. -/
def sRow (iid st fav : Int) : ItemRow :=
  ⟨iid, some "T", none, some "https://u", none, some "", st, fav⟩

/-- The scenario table: 1 unread, 2 archived, 3 favorite-unread,
4 archived-favorite (statuses 0/1, favorite 0/1). -/
def scenarioTbl : List ItemRow :=
  [sRow 1 0 0, sRow 2 1 0, sRow 3 0 1, sRow 4 1 1]

/-- **C9.** The export row selection applies the status filter and the
favorite-only filter with logical AND, orders by `item_id` ascending,
honours offset and a limit whose no-limit sentinel (`none`, SQLite `-1`)
is distinct from zero; over the scenario table, `filter_status=1`
selects exactly items 2 and 4, and adding `filter_favorite` selects
exactly item 4. -/
theorem export_row_selection
    (tbl : List ItemRow) (fs : Option Int) (ffav : Bool) (off : Nat)
    (r : ItemRow) :
    (r ∈ selectExportRows tbl fs ffav none 0 ↔
      r ∈ tbl ∧ rowMatches fs ffav r = true) ∧
    (rowMatches fs ffav r = true ↔
      ((∀ s, fs = some s → r.status = s) ∧ (ffav = true → r.favorite = 1))) ∧
    List.Sorted rowLe (selectExportRows tbl fs ffav none off) ∧
    selectExportRows tbl fs ffav (some 0) off = [] ∧
    (selectExportRows scenarioTbl (some 1) false none 0).map (·.item_id) =
      [2, 4] ∧
    (selectExportRows scenarioTbl (some 1) true none 0).map (·.item_id) =
      [4] := by
  refine ⟨?_, ?_, ?_, ?_, by decide, by decide⟩
  · simp [selectExportRows, List.mem_filter]
  · cases fs with
    | none => cases ffav <;> simp [rowMatches]
    | some s =>
      cases ffav with
      | false =>
        constructor
        · intro h
          have h' : r.status = s := by simpa [rowMatches] using h
          exact ⟨fun s' hs' => (Option.some.inj hs') ▸ h', by simp⟩
        · rintro ⟨h1, -⟩
          simp [rowMatches, h1 s rfl]
      | true =>
        constructor
        · intro h
          have h' : r.status = s ∧ r.favorite = 1 := by
            simpa [rowMatches] using h
          exact ⟨fun s' hs' => (Option.some.inj hs') ▸ h'.1, fun _ => h'.2⟩
        · rintro ⟨h1, h2⟩
          simp [rowMatches, h1 s rfl, h2 rfl]
  · show List.Sorted rowLe
      ((List.insertionSort rowLe (tbl.filter (rowMatches fs ffav))).drop off)
    exact List.Pairwise.sublist (List.drop_sublist _ _)
      (List.sorted_insertionSort rowLe _)
  · simp [selectExportRows]
